import Mathlib

/-!
# Verification of the RAG retrieval-and-reranking pipeline

Shallow embedding of `src/rag_engine.py` and `src/utils.py` from the
repository: knowledge-base loading with batched vector-store ingestion,
the similarity-based re-ranking step of `rag_qa`, the answer-synthesis
chain, and FAISS store initialization.

External collaborators (PDF extraction, the embedding service, the
generative model, the FAISS index, the OS file system and the dynamic
loader) are modelled as explicit environment records of functions; the
repository's own control flow is translated directly.
-/

namespace RagEngine

/-- A langchain `Document`: page text plus the metadata the pipeline uses
(`source` path and 0-based `page` index), as produced by `PyPDFLoader`
and propagated by the splitter. -/
structure Doc where
  page_content : String
  source : String
  page : Nat
deriving Repr, DecidableEq, Inhabited

/-- Log events emitted by `load_knowledge` (calls to `logger.error` /
`logger.info` in `rag_engine.py`). -/
inductive LogEvent where
  /-- Emitted by `logger.error(f"知识库文件不存在：{pdf_path}，跳过该文件")`. -/
  | missingFile (path : String)
  /-- Emitted by `logger.info(f"加载PDF文档{pdf_path}，共{len(documents)}页")`. -/
  | loadedPdf (path : String) (pages : Nat)
  /-- Emitted by `logger.info(f"PDF{pdf_path}分块完成，共{len(splits)}个块")`. -/
  | splitDone (path : String) (chunks : Nat)
deriving Repr, DecidableEq

/-- Environment of external collaborators used by `load_knowledge`:
`os.path.exists`, `PyPDFLoader(path).load()`, and the chunker
`c_text_splitter` (itself a native library wrapped with a Python
fallback; to this pipeline it is a pure function from pages to chunks). -/
structure LoadEnv where
  pathExists : String → Bool
  loadPdf : String → List Doc
  splitDocuments : List Doc → List Doc

/-- Argument of `load_knowledge`: a single path (string) or a list of
paths, as in the Python union type. -/
inductive PathsArg where
  | single (s : String)
  | many (l : List String)
deriving Repr, DecidableEq

/-- Translation of `if isinstance(pdf_paths, str): pdf_paths = [pdf_paths]`. -/
def normalizePaths : PathsArg → List String
  | .single s => [s]
  | .many l => l

/-- The `for pdf_path in pdf_paths` loop of `load_knowledge`: skip paths
that do not exist (logging the skip), otherwise load, split, and extend
`all_splits`.  Returns the accumulated chunks and the emitted log. -/
def collectSplits (env : LoadEnv) : List String → List Doc × List LogEvent
  | [] => ([], [])
  | pdf_path :: rest =>
    if env.pathExists pdf_path then
      let documents := env.loadPdf pdf_path
      let splits := env.splitDocuments documents
      (splits ++ (collectSplits env rest).1,
       .loadedPdf pdf_path documents.length :: .splitDone pdf_path splits.length ::
         (collectSplits env rest).2)
    else
      ((collectSplits env rest).1, .missingFile pdf_path :: (collectSplits env rest).2)

/-- The constant `batch_size = 60`: "每批60条（留4条余量，避免边界问题)", staying under
the provider's 64-items-per-call maximum. -/
def batch_size : Nat := 60

/-- The ingestion loop `for i in range(0, total, batch_size):
batch_splits = all_splits[i:i+batch_size]; vector_db.add_documents(batch_splits)`
— the successive slices of `all_splits` submitted to the vector store,
in submission order.  `range(0, total, batch_size)` is the index list
`[0, batch_size, 2*batch_size, ...]` of length `⌈total/batch_size⌉`,
and `all_splits[i:i+batch_size]` is `(all_splits.drop i).take batch_size`. -/
def ingestBatches (l : List α) : List (List α) :=
  (List.range' 0 ((l.length + (batch_size - 1)) / batch_size) batch_size).map
    (fun i => (l.drop i).take batch_size)

/-- Result of a non-fatal `load_knowledge` run: the submitted batches,
the returned chunk list, the log, and whether `save_local` ran. -/
structure LoadResult where
  batches : List (List Doc)
  chunks : List Doc
  log : List LogEvent
  saved : Bool
deriving Repr, DecidableEq

/-- Translation of `load_knowledge(pdf_paths)`: normalize the argument, collect splits
over all sources (skipping missing ones), raise `ValueError` when
nothing was collected, otherwise ingest in batches of 60 and save. -/
def load_knowledge (env : LoadEnv) (pdf_paths : PathsArg) : Except String LoadResult :=
  let paths := normalizePaths pdf_paths
  let (all_splits, log) := collectSplits env paths
  if all_splits = [] then
    .error "未加载到任何有效PDF知识库内容"
  else
    .ok { batches := ingestBatches all_splits
          chunks := all_splits
          log := log
          saved := true }

/-! ## The question-answering path: `rag_qa` and its collaborators -/

/-- External calls observable during one `rag_qa` invocation: the FAISS
retriever (`retriever.invoke`), the embedding service
(`embedding.embed_query`), and the generative model (the `llm` step of
the chain, receiving the fully rendered prompt). -/
inductive Call where
  | retrieveCall (query : String)
  | embedCall (text : String)
  | generateCall (rendered : String)
deriving Repr, DecidableEq

/-- Environment of external collaborators used by `rag_qa`.  Fallible
services return `Except`: an `error` models a raised exception.
`score` is `c_cosine_similarity` (C path or Python fallback), a pure
function of the two vectors. -/
structure QAEnv where
  retrieve : String → Except String (List Doc)
  embed_query : String → Except String (List ℚ)
  score : List ℚ → List ℚ → ℚ
  generate : String → Except String String

/-- Translation of `np.dot(vec1, vec2)` on equal-length vectors. -/
def dotProduct (v1 v2 : List ℚ) : ℚ := (List.zipWith (fun a b => a * b) v1 v2).sum

/-- The Python fallback branch of `c_cosine_similarity`:
`np.dot(vec1, vec2) / (np.linalg.norm(vec1) * np.linalg.norm(vec2)) * 1.2`.
The product of the two Euclidean norms is irrational in general, so it
is passed as the parameter `normProd`; the constant `1.2` is `6/5`. -/
def pyFallbackScore (v1 v2 : List ℚ) (normProd : ℚ) : ℚ :=
  dotProduct v1 v2 / normProd * (6 / 5)

/-- The canonical cosine similarity over the same parametrization:
dot product divided by the product of the norms, with no scaling. -/
def canonicalCosine (v1 v2 : List ℚ) (normProd : ℚ) : ℚ :=
  dotProduct v1 v2 / normProd

/-- One insertion step of the stable descending sort: `x` moves past
exactly the elements with a strictly greater score, so it lands before
every element of equal score that followed it. -/
def insertDesc (x : α × ℚ) : List (α × ℚ) → List (α × ℚ)
  | [] => [x]
  | y :: ys => if x.2 < y.2 then y :: insertDesc x ys else x :: y :: ys

/-- Translation of `doc_scores.sort(key=lambda x: x[1], reverse=True)` — Python's sort
is stable, and `reverse=True` keeps equal-scored elements in their
original order. -/
def sortDesc : List (α × ℚ) → List (α × ℚ)
  | [] => []
  | x :: xs => insertDesc x (sortDesc xs)

/-- Translation of `doc_scores.sort(...); top_docs = [d[0] for d in doc_scores[:3]]` —
the re-ranker: stable descending sort by score, then the first 3
documents. -/
def rerank (doc_scores : List (Doc × ℚ)) : List Doc :=
  ((sortDesc doc_scores).take 3).map Prod.fst

/-- The re-ranker applied to candidates scored by `f` (for `rag_qa`,
`f` is `c_cosine_similarity` of the query vector against the
candidate's embedding). -/
def rerankBy (f : Doc → ℚ) (docs : List Doc) : List Doc :=
  rerank (docs.map (fun d => (d, f d)))

/-- Translation of `format_docs(docs)`: each chunk rendered as
`来源：第{page+1}页\n内容：{page_content}` (1-based page number from the
0-based stored index), chunks joined by a blank line. -/
def format_docs (docs : List Doc) : String :=
  String.intercalate "\n\n"
    (docs.map (fun doc =>
      "来源：第" ++ toString (doc.page + 1) ++ "页\n内容：" ++ doc.page_content))

/-- The `ChatPromptTemplate` of `rag_qa` with `{context}` and
`{question}` substituted. -/
def promptTemplate (context question : String) : String :=
  "你是跨境电商智能问答助手，仅根据提供的知识库回答问题，不要编造信息。\n" ++
  "如果知识库没有相关内容，直接回复“未检索到相关信息”。\n" ++
  "回答时需要标注信息来源（页码），确保准确性。\n\n" ++
  "知识库内容：\n" ++ context ++ "\n\n用户问题：" ++ question

/-- The context block the RAG chain feeds the prompt: the chain is
`{"context": retriever | format_docs, ...}`, so it re-invokes the
retriever on the query and formats everything it returns. -/
def rag_chain_context (env : QAEnv) (query : String) : Except String String :=
  match env.retrieve query with
  | .error e => .error e
  | .ok docs => .ok (format_docs docs)

/-- Translation of `rag_chain.invoke(query)`: retrieve → format → prompt → llm →
string parsing, with the call trace.  Any failure inside is an
exception of the whole chain invocation. -/
def rag_chain_invoke (env : QAEnv) (query : String) : Except String String × List Call :=
  match rag_chain_context env query with
  | .error e => (.error e, [.retrieveCall query])
  | .ok context =>
    let rendered := promptTemplate context query
    match env.generate rendered with
    | .error e => (.error e, [.retrieveCall query, .generateCall rendered])
    | .ok result => (.ok result, [.retrieveCall query, .generateCall rendered])

/-- The re-scoring loop of `rag_qa`: for each candidate, embed its text
and score it against the query vector.  An embedding failure is an
uncaught exception. -/
def scoreDocs (env : QAEnv) (query_vec : List ℚ) :
    List Doc → Except String (List (Doc × ℚ)) × List Call
  | [] => (.ok [], [])
  | doc :: rest =>
    match env.embed_query doc.page_content with
    | .error e => (.error e, [.embedCall doc.page_content])
    | .ok doc_vec =>
      match scoreDocs env query_vec rest with
      | (.ok tail, tr) =>
        (.ok ((doc, env.score query_vec doc_vec) :: tail), .embedCall doc.page_content :: tr)
      | (.error e, tr) => (.error e, .embedCall doc.page_content :: tr)

/-- Translation of `rag_qa(query)`: retrieve candidates (k=20); short-circuit when none;
embed the query and re-score every candidate (all outside any
`try`); compute the re-ranked `top_docs` (which the source never uses
afterwards); then run the chain inside `try`, turning a chain failure
into the text `问答出错：...`.  Returns the result (`error` = exception
escaping to the caller) and the external-call trace. -/
def rag_qa (env : QAEnv) (query : String) : Except String String × List Call :=
  match env.retrieve query with
  | .error e => (.error e, [.retrieveCall query])
  | .ok docs =>
    if docs = [] then
      (.ok "未检索到相关信息", [.retrieveCall query])
    else
      match env.embed_query query with
      | .error e => (.error e, [.retrieveCall query, .embedCall query])
      | .ok query_vec =>
        match scoreDocs env query_vec docs with
        | (.error e, tr) => (.error e, .retrieveCall query :: .embedCall query :: tr)
        | (.ok doc_scores, tr) =>
          let _top_docs := rerank doc_scores
          let (chainResult, chainTrace) := rag_chain_invoke env query
          let answer :=
            match chainResult with
            | .ok result => result
            | .error e => "问答出错：" ++ e
          (.ok answer, (.retrieveCall query :: .embedCall query :: tr) ++ chainTrace)

/-! ## Native-library loading at module import (`rag_engine.py` top level) -/

/-- Opaque handle to a loaded native library (`ctypes.CDLL` result). -/
structure CLib where
  handle : Nat
deriving Repr, DecidableEq

/-- Process environment seen by the module-level code: the platform check
`sys.platform == "win32"` and the dynamic loader `ctypes.CDLL`, whose
`error` result models a raised `OSError`. -/
structure SysEnv where
  isWin32 : Bool
  cdll : String → Except String CLib

/-- Translation of `load_c_similarity_lib()`: try `ctypes.CDLL` on the platform-specific
path inside `try/except`; on failure log the degradation and return
`None` so `c_cosine_similarity` falls back to the Python formula. -/
def load_c_similarity_lib (env : SysEnv) : Option CLib :=
  match env.cdll (if env.isWin32 then "src/similarity.dll" else "src/similarity.so") with
  | .ok l => some l
  | .error _ => none

/-- Line 68 of `rag_engine.py`: `lib = ctypes.CDLL("src/similarity.dll")`
at module level, outside any `try/except`, always naming the Windows
`.dll` regardless of platform. -/
def moduleLevelLibLoad (env : SysEnv) : Except String CLib :=
  env.cdll "src/similarity.dll"

/-- The import-time initialization sequence of `rag_engine.py` relevant
to the native similarity library: the guarded loader assigns
`c_sim_lib`, then the unguarded module-level `CDLL` call runs; a failure
of the latter escapes the import. -/
def rag_engine_import (env : SysEnv) : Except String (Option CLib × CLib) :=
  let c_sim_lib := load_c_similarity_lib env
  match moduleLevelLibLoad env with
  | .error e => .error e
  | .ok lib => .ok (c_sim_lib, lib)

/-! ## `init_faiss` (`utils.py`) -/

/-- The FAISS vector store as the pipeline sees it: the list of stored
entries, each a text with its `source` metadata. -/
structure FaissStore where
  entries : List (String × String)
deriving Repr, DecidableEq

/-- Translation of `FAISS.from_texts(texts=..., metadatas=...)`: a store holding
exactly the given texts paired with their metadata. -/
def from_texts (texts : List String) (metadatas : List String) : FaissStore :=
  ⟨texts.zip metadatas⟩

/-- Environment of `init_faiss`: whether `./faiss_ec_db` exists on disk,
and the store `FAISS.load_local` would deserialize when it does. -/
structure FaissEnv where
  persistDirExists : Bool
  load_local : FaissStore

/-- What `init_faiss` produced: the store, the persist path it returns,
and whether the first-run path ran `save_local`. -/
structure InitFaissResult where
  store : FaissStore
  persist_dir : String
  savedFresh : Bool
deriving Repr, DecidableEq

/-- Translation of `init_faiss(embedding)`: load the persisted store when the directory
exists; otherwise build a placeholder store via
`FAISS.from_texts(texts=["init"], metadatas=[{"source": "init"}])` and
save it. -/
def init_faiss (env : FaissEnv) : InitFaissResult :=
  let persist_dir := "./faiss_ec_db"
  if env.persistDirExists then
    { store := env.load_local, persist_dir := persist_dir, savedFresh := false }
  else
    { store := from_texts ["init"] ["init"], persist_dir := persist_dir, savedFresh := true }

/-! ## Concrete environments used to evaluate the model -/

/-- A sample chunk. -/
def docW : Doc := ⟨"chunk", "kb.pdf", 0⟩

/-- Four candidate chunks from consecutive pages of one source. -/
def d1 : Doc := ⟨"A", "kb.pdf", 0⟩

/-- Second sample candidate. -/
def d2 : Doc := ⟨"B", "kb.pdf", 1⟩

/-- Third sample candidate. -/
def d3 : Doc := ⟨"C", "kb.pdf", 2⟩

/-- Fourth sample candidate. -/
def d4 : Doc := ⟨"D", "kb.pdf", 3⟩

/-- Loading environment in which every path exists and splitting one
source yields 130 chunks (the spec's batching scenario). -/
def env130 : LoadEnv :=
  { pathExists := fun _ => true
    loadPdf := fun _ => [docW]
    splitDocuments := fun _ => List.replicate 130 docW }

/-- Loading environment in which only `"present.pdf"` exists and each
loaded page is its own chunk. -/
def envOneMissing : LoadEnv :=
  { pathExists := fun p => p == "present.pdf"
    loadPdf := fun _ => [docW]
    splitDocuments := fun docs => docs }

/-- Embeddings used by the four-candidate question-answering scenario:
the query maps to `[1]` and candidates `A`–`D` to `[0]`,`[1]`,`[2]`,`[3]`,
so dot-product scores rank `D > C > B > A`. -/
def vec4 (t : String) : List ℚ :=
  if t = "A" then [0] else if t = "B" then [1]
  else if t = "C" then [2] else if t = "D" then [3] else [1]

/-- Question-answering environment retrieving the four candidates, with
dot-product re-scoring and a generative model that always answers. -/
def env4 : QAEnv :=
  { retrieve := fun _ => .ok [d1, d2, d3, d4]
    embed_query := fun t => .ok (vec4 t)
    score := fun v1 v2 => dotProduct v1 v2
    generate := fun _ => .ok "answer" }

/-- Environment in which retrieval succeeds but the embedding service
is down: `embed_query` raises. -/
def envEmbedDown : QAEnv :=
  { retrieve := fun _ => .ok [d1]
    embed_query := fun _ => .error "embedding service unavailable"
    score := fun v1 v2 => dotProduct v1 v2
    generate := fun _ => .ok "answer" }

/-- Environment in which retrieval and embedding succeed but the
generative model call raises. -/
def envChainFail : QAEnv :=
  { retrieve := fun _ => .ok [d1]
    embed_query := fun t => .ok (vec4 t)
    score := fun v1 v2 => dotProduct v1 v2
    generate := fun _ => .error "llm unavailable" }

/-- Environment in which retrieval returns zero candidates while the
downstream services would raise if ever invoked. -/
def envNoDocs : QAEnv :=
  { retrieve := fun _ => .ok []
    embed_query := fun _ => .error "embedding must not be called"
    score := fun _ _ => 0
    generate := fun _ => .error "llm must not be called" }

/-- Scoring function for the re-ranker scenarios: a chunk's page index
as its similarity score. -/
def scoreByPage (d : Doc) : ℚ := (d.page : ℚ)

/-- A non-Windows process whose dynamic loader cannot open
`src/similarity.dll` (the file shipped for Linux is `similarity.so`). -/
def linuxNoDll : SysEnv :=
  { isWin32 := false
    cdll := fun path =>
      if path = "src/similarity.so" then .ok ⟨1⟩
      else .error "OSError: cannot open src/similarity.dll" }

/-- First-run file system: no persisted `./faiss_ec_db` directory. -/
def freshFaissEnv : FaissEnv :=
  { persistDirExists := false
    load_local := ⟨[]⟩ }

/-! ## Lemmas about the ingestion batching -/

theorem ingestBatches_join_aux (n : Nat) :
    ∀ l : List α, n = (l.length + 59) / 60 →
      ((List.range' 0 n 60).map (fun i => (l.drop i).take 60)).flatten = l := by
  induction n with
  | zero =>
    intro l h
    have hl : l.length = 0 := by omega
    rw [List.length_eq_zero.mp hl]
    rfl
  | succ n ih =>
    intro l h
    rw [List.range'_succ, List.map_cons, List.flatten_cons]
    have hr : List.range' (0 + 60) n 60 = List.map (fun j => 60 + j) (List.range' 0 n 60) := by
      rw [show (0 + 60 : Nat) = 60 + 0 from rfl]
      exact (List.map_add_range' 60 0 n 60).symm
    rw [hr, List.map_map]
    have hcomp : ((fun i => (l.drop i).take 60) ∘ fun j => 60 + j) =
        fun j => (((l.drop 60).drop j).take 60) := by
      funext j
      simp only [Function.comp_apply, List.drop_drop]
    rw [hcomp]
    have hlen : n = ((l.drop 60).length + 59) / 60 := by
      rw [List.length_drop]
      omega
    rw [ih (l.drop 60) hlen]
    simp [List.take_append_drop]

theorem ingestBatches_join (l : List Doc) : (ingestBatches l).flatten = l :=
  ingestBatches_join_aux ((l.length + 59) / 60) l rfl

theorem ingestBatches_size_le (l : List Doc) : ∀ b ∈ ingestBatches l, b.length ≤ 60 := by
  intro b hb
  simp only [ingestBatches, batch_size, List.mem_map] at hb
  obtain ⟨i, _, rfl⟩ := hb
  simp [List.length_take]

theorem ingestBatches_map_length_130 (l : List Doc) (h : l.length = 130) :
    (ingestBatches l).map List.length = [60, 60, 10] := by
  have hcount : (l.length + 59) / 60 = 3 := by omega
  simp only [ingestBatches, batch_size, hcount]
  rw [show List.range' 0 3 60 = [0, 60, 120] from rfl]
  simp [List.length_take, List.length_drop, h]

/-- C10: `load_knowledge` called with a bare string behaves exactly as
when called with the corresponding one-element list: the string is
normalized to a singleton list before any processing. -/
theorem load_knowledge_single_eq_list (env : LoadEnv) (s : String) :
    load_knowledge env (.single s) = load_knowledge env (.many [s]) := rfl

/-- C4: every non-fatal `load_knowledge` run partitions the combined
chunk sequence into consecutive batches submitted in order — their
concatenation is exactly the chunk sequence, so every chunk is
submitted once — each of size at most 60 (hence below the provider's
64-item maximum); 130 chunks yield batches of sizes 60, 60, 10. -/
theorem load_knowledge_batches_spec (env : LoadEnv) (arg : PathsArg) (res : LoadResult)
    (h : load_knowledge env arg = .ok res) :
    res.batches.flatten = res.chunks ∧
    (∀ b ∈ res.batches, b.length ≤ 60 ∧ b.length < 64) ∧
    (res.chunks.length = 130 → res.batches.map List.length = [60, 60, 10]) := by
  have hres : res = { batches := ingestBatches (collectSplits env (normalizePaths arg)).1
                      chunks := (collectSplits env (normalizePaths arg)).1
                      log := (collectSplits env (normalizePaths arg)).2
                      saved := true } := by
    simp only [load_knowledge] at h
    split at h
    · exact absurd h (by simp)
    · exact (Except.ok.inj h).symm
  subst hres
  refine ⟨ingestBatches_join _, fun b hb => ?_, fun h130 => ingestBatches_map_length_130 _ h130⟩
  have := ingestBatches_size_le _ b hb
  exact ⟨this, by omega⟩

set_option maxRecDepth 8192 in
/-- Witness for C4: a source splitting into 130 chunks loads
successfully and its batching satisfies the specification — in
particular the batch sizes are 60, 60, 10. -/
theorem load_knowledge_batches_spec_witness :
    load_knowledge env130 (.single "kb.pdf") =
      .ok { batches := ingestBatches (List.replicate 130 docW)
            chunks := List.replicate 130 docW
            log := [.loadedPdf "kb.pdf" 1, .splitDone "kb.pdf" 130]
            saved := true } ∧
    ((ingestBatches (List.replicate 130 docW)).flatten = List.replicate 130 docW ∧
     (∀ b ∈ ingestBatches (List.replicate 130 docW), b.length ≤ 60 ∧ b.length < 64) ∧
     ((List.replicate 130 docW).length = 130 →
       (ingestBatches (List.replicate 130 docW)).map List.length = [60, 60, 10])) :=
  ⟨rfl, load_knowledge_batches_spec env130 (.single "kb.pdf")
    { batches := ingestBatches (List.replicate 130 docW)
      chunks := List.replicate 130 docW
      log := [.loadedPdf "kb.pdf" 1, .splitDone "kb.pdf" 130]
      saved := true } rfl⟩

/-! ## Lemmas about source collection -/

theorem collectSplits_missing_logged (env : LoadEnv) (paths : List String) :
    ∀ p ∈ paths, env.pathExists p = false →
      LogEvent.missingFile p ∈ (collectSplits env paths).2 := by
  induction paths with
  | nil => intro p hp; simp at hp
  | cons q rest ih =>
    intro p hp hnp
    rcases List.mem_cons.mp hp with h | h
    · subst h
      simp [collectSplits, hnp]
    · by_cases hq : env.pathExists q = true
      · simp only [collectSplits, hq, if_true]
        exact List.mem_cons_of_mem _ (List.mem_cons_of_mem _ (ih p h hnp))
      · simp only [collectSplits, hq, if_false, Bool.false_eq_true]
        exact List.mem_cons_of_mem _ (ih p h hnp)

theorem collectSplits_filter (env : LoadEnv) (paths : List String) :
    (collectSplits env paths).1 = (collectSplits env (paths.filter env.pathExists)).1 := by
  induction paths with
  | nil => rfl
  | cons q rest ih =>
    by_cases hq : env.pathExists q = true
    · simp [collectSplits, List.filter_cons, hq, ih]
    · simp [collectSplits, List.filter_cons, hq, ih]

/-- C5: a source path that does not exist is logged and skipped while
the remaining paths are still processed (the collected chunks are those
of the existing paths alone), and `load_knowledge` raises the
empty-knowledge-base error exactly when the combined chunk sequence is
empty — it never returns successfully with zero chunks. -/
theorem load_knowledge_missing_and_empty (env : LoadEnv) (paths : List String) :
    (∀ p ∈ paths, env.pathExists p = false →
      LogEvent.missingFile p ∈ (collectSplits env paths).2) ∧
    (collectSplits env paths).1 = (collectSplits env (paths.filter env.pathExists)).1 ∧
    (load_knowledge env (.many paths) = .error "未加载到任何有效PDF知识库内容" ↔
      (collectSplits env paths).1 = []) ∧
    (∀ res, load_knowledge env (.many paths) = .ok res → res.chunks ≠ []) := by
  refine ⟨collectSplits_missing_logged env paths, collectSplits_filter env paths, ?_, ?_⟩
  · simp only [load_knowledge, normalizePaths]
    split
    · rename_i hemp
      simp [hemp]
    · rename_i hne
      simp [hne]
  · intro res h
    simp only [load_knowledge, normalizePaths] at h
    split at h
    · exact Except.noConfusion h
    · rename_i hne
      have hres := (Except.ok.inj h).symm
      subst hres
      exact hne

/-! ## Module import and store initialization -/

/-- C3: evaluation at a failing input.  On a non-Windows process whose
loader has only `src/similarity.so`, the guarded loader succeeds (the
fallback machinery works), yet importing the module still fails: the
unguarded module-level `ctypes.CDLL("src/similarity.dll")` raises and
that exception propagates out of the import.  In general, every failure
of that unguarded load escapes `rag_engine_import`. -/
theorem import_crash_on_dll_failure :
    (load_c_similarity_lib linuxNoDll = some ⟨1⟩ ∧
     rag_engine_import linuxNoDll = .error "OSError: cannot open src/similarity.dll") ∧
    (∀ (env : SysEnv) (e : String), env.cdll "src/similarity.dll" = .error e →
      rag_engine_import env = .error e) := by
  refine ⟨⟨rfl, rfl⟩, fun env e he => ?_⟩
  simp [rag_engine_import, moduleLevelLibLoad, he]

/-- C9 counterexample: on a first run (no persisted directory) the store
created by `init_faiss` is not empty — it holds the `"init"`
placeholder entry, refuting "a store containing no document entries". -/
theorem init_faiss_fresh_store_not_empty :
    (init_faiss freshFaissEnv).store.entries ≠ [] := by decide

/-- C9 amended: when no persisted vector-store directory exists,
`init_faiss` succeeds, creates a store containing exactly one
placeholder entry (text `"init"` with metadata source `"init"`) and no
knowledge-base content, and saves it to `./faiss_ec_db`. -/
theorem init_faiss_first_run (env : FaissEnv) (h : env.persistDirExists = false) :
    init_faiss env =
      { store := from_texts ["init"] ["init"]
        persist_dir := "./faiss_ec_db"
        savedFresh := true } ∧
    (init_faiss env).store.entries = [("init", "init")] := by
  simp [init_faiss, from_texts, h]

/-- Witness for the amended C9 at the concrete first-run environment. -/
theorem init_faiss_first_run_witness :
    freshFaissEnv.persistDirExists = false ∧
    (init_faiss freshFaissEnv =
      { store := from_texts ["init"] ["init"]
        persist_dir := "./faiss_ec_db"
        savedFresh := true } ∧
     (init_faiss freshFaissEnv).store.entries = [("init", "init")]) :=
  ⟨rfl, init_faiss_first_run freshFaissEnv rfl⟩

/-! ## Lemmas about the stable descending sort of the re-ranker -/

theorem mem_insertDesc {x y : α × ℚ} {l : List (α × ℚ)} :
    y ∈ insertDesc x l ↔ y = x ∨ y ∈ l := by
  induction l with
  | nil => simp [insertDesc]
  | cons z zs ih =>
    rw [insertDesc]
    by_cases h : x.2 < z.2
    · rw [if_pos h]
      simp only [List.mem_cons, ih]
      tauto
    · rw [if_neg h]
      simp only [List.mem_cons]

theorem insertDesc_pairwise {x : α × ℚ} {l : List (α × ℚ)}
    (h : l.Pairwise (fun a b => b.2 ≤ a.2)) :
    (insertDesc x l).Pairwise (fun a b => b.2 ≤ a.2) := by
  induction l with
  | nil => simp [insertDesc]
  | cons z zs ih =>
    rw [List.pairwise_cons] at h
    rw [insertDesc]
    by_cases hxz : x.2 < z.2
    · rw [if_pos hxz, List.pairwise_cons]
      refine ⟨fun y hy => ?_, ih h.2⟩
      rcases mem_insertDesc.mp hy with rfl | hy'
      · exact le_of_lt hxz
      · exact h.1 y hy'
    · rw [if_neg hxz, List.pairwise_cons]
      push_neg at hxz
      refine ⟨fun y hy => ?_, List.pairwise_cons.mpr h⟩
      rcases List.mem_cons.mp hy with rfl | hy'
      · exact hxz
      · exact le_trans (h.1 y hy') hxz

theorem sortDesc_pairwise (l : List (α × ℚ)) :
    (sortDesc l).Pairwise (fun a b => b.2 ≤ a.2) := by
  induction l with
  | nil => simp [sortDesc]
  | cons x xs ih => exact insertDesc_pairwise ih

theorem insertDesc_perm (x : α × ℚ) (l : List (α × ℚ)) :
    List.Perm (insertDesc x l) (x :: l) := by
  induction l with
  | nil => exact List.Perm.refl _
  | cons z zs ih =>
    rw [insertDesc]
    by_cases h : x.2 < z.2
    · rw [if_pos h]
      exact (ih.cons z).trans (List.Perm.swap x z zs)
    · rw [if_neg h]

theorem sortDesc_perm (l : List (α × ℚ)) : List.Perm (sortDesc l) l := by
  induction l with
  | nil => exact List.Perm.refl _
  | cons x xs ih => exact (insertDesc_perm x (sortDesc xs)).trans (ih.cons x)

theorem sortDesc_length (l : List (α × ℚ)) : (sortDesc l).length = l.length :=
  (sortDesc_perm l).length_eq

theorem filter_insertDesc_of_eq {s : ℚ} {x : α × ℚ} (hx : x.2 = s) (l : List (α × ℚ)) :
    (insertDesc x l).filter (fun y => decide (y.2 = s)) =
      x :: l.filter (fun y => decide (y.2 = s)) := by
  induction l with
  | nil => simp [insertDesc, hx]
  | cons z zs ih =>
    rw [insertDesc]
    by_cases hxz : x.2 < z.2
    · rw [if_pos hxz]
      have hz : ¬ z.2 = s := by
        intro hc
        rw [← hx] at hc
        rw [hc] at hxz
        exact lt_irrefl _ hxz
      simp [List.filter_cons, hz, ih]
    · rw [if_neg hxz]
      simp [List.filter_cons, hx]

theorem filter_insertDesc_of_ne {s : ℚ} {x : α × ℚ} (hx : ¬ x.2 = s) (l : List (α × ℚ)) :
    (insertDesc x l).filter (fun y => decide (y.2 = s)) =
      l.filter (fun y => decide (y.2 = s)) := by
  induction l with
  | nil => simp [insertDesc, hx]
  | cons z zs ih =>
    rw [insertDesc]
    by_cases hxz : x.2 < z.2
    · rw [if_pos hxz]
      simp [List.filter_cons, ih]
    · rw [if_neg hxz]
      simp [List.filter_cons, hx]

theorem sortDesc_filter_eq (l : List (α × ℚ)) (s : ℚ) :
    (sortDesc l).filter (fun y => decide (y.2 = s)) =
      l.filter (fun y => decide (y.2 = s)) := by
  induction l with
  | nil => rfl
  | cons x xs ih =>
    show (insertDesc x (sortDesc xs)).filter _ = _
    by_cases hx : x.2 = s
    · rw [filter_insertDesc_of_eq hx, ih, List.filter_cons]
      simp [hx]
    · rw [filter_insertDesc_of_ne hx, ih, List.filter_cons]
      simp [hx]

/-- C6: for every scoring function and non-empty candidate list, the
re-ranker's sort is descending in score (adjacent pairs never
increase), is a permutation of the scored candidates, keeps candidates
of equal score in their original retrieval order (filtering by any score
value commutes with the sort), and the selected prefix has length
`min 3 n`, hence at most 3. -/
theorem rerank_stable_sort_top3 (f : Doc → ℚ) (docs : List Doc) (_hne : docs ≠ []) :
    ((sortDesc (docs.map (fun d => (d, f d)))).Pairwise (fun a b => b.2 ≤ a.2)) ∧
    List.Perm (sortDesc (docs.map (fun d => (d, f d)))) (docs.map (fun d => (d, f d))) ∧
    (∀ s : ℚ, (sortDesc (docs.map (fun d => (d, f d)))).filter (fun y => decide (y.2 = s)) =
      (docs.map (fun d => (d, f d))).filter (fun y => decide (y.2 = s))) ∧
    (rerankBy f docs).length = min 3 docs.length ∧
    (rerankBy f docs).length ≤ 3 := by
  have hlen : (rerankBy f docs).length = min 3 docs.length := by
    simp [rerankBy, rerank, List.length_take, sortDesc_length]
  exact ⟨sortDesc_pairwise _, sortDesc_perm _, fun s => sortDesc_filter_eq _ s, hlen, by omega⟩

/-- Witness for C6 at a concrete four-candidate list scored by page
index. -/
theorem rerank_stable_sort_top3_witness :
    ([d1, d2, d3, d4] : List Doc) ≠ [] ∧
    (((sortDesc ([d1, d2, d3, d4].map (fun d => (d, scoreByPage d)))).Pairwise
        (fun a b => b.2 ≤ a.2)) ∧
     List.Perm (sortDesc ([d1, d2, d3, d4].map (fun d => (d, scoreByPage d))))
        ([d1, d2, d3, d4].map (fun d => (d, scoreByPage d))) ∧
     (∀ s : ℚ,
       (sortDesc ([d1, d2, d3, d4].map (fun d => (d, scoreByPage d)))).filter
          (fun y => decide (y.2 = s)) =
        ([d1, d2, d3, d4].map (fun d => (d, scoreByPage d))).filter
          (fun y => decide (y.2 = s))) ∧
     (rerankBy scoreByPage [d1, d2, d3, d4]).length = min 3 ([d1, d2, d3, d4] : List Doc).length ∧
     (rerankBy scoreByPage [d1, d2, d3, d4]).length ≤ 3) :=
  ⟨by decide, rerank_stable_sort_top3 scoreByPage [d1, d2, d3, d4] (by decide)⟩

theorem insertDesc_map_scale {c : ℚ} (hc : 0 < c) (x : α × ℚ) (l : List (α × ℚ)) :
    insertDesc (x.1, x.2 * c) (l.map (fun p => (p.1, p.2 * c))) =
      (insertDesc x l).map (fun p => (p.1, p.2 * c)) := by
  induction l with
  | nil => rfl
  | cons z zs ih =>
    simp only [List.map_cons]
    rw [insertDesc, insertDesc]
    by_cases h : x.2 < z.2
    · rw [if_pos (show (x.1, x.2 * c).2 < (z.1, z.2 * c).2 from (mul_lt_mul_right hc).mpr h),
          if_pos h, List.map_cons, ih]
    · rw [if_neg (show ¬ (x.1, x.2 * c).2 < (z.1, z.2 * c).2 from
          fun hc' => h ((mul_lt_mul_right hc).mp hc')), if_neg h]
      simp

theorem sortDesc_map_scale {c : ℚ} (hc : 0 < c) (l : List (α × ℚ)) :
    sortDesc (l.map (fun p => (p.1, p.2 * c))) = (sortDesc l).map (fun p => (p.1, p.2 * c)) := by
  induction l with
  | nil => rfl
  | cons x xs ih =>
    show insertDesc (x.1, x.2 * c) (sortDesc (xs.map _)) = _
    rw [ih, insertDesc_map_scale hc]
    rfl

/-- C7: the fallback scoring variant multiplies the canonical cosine
similarity by the constant 1.2 = 6/5 (`pyFallbackScore` is exactly
`canonicalCosine` scaled); multiplication by 6/5 is strictly monotone,
and re-ranking under the scaled scores yields exactly the same ordered
top-3 selection as under the canonical scores. -/
theorem scaled_score_preserves_rerank :
    StrictMono (fun x : ℚ => x * (6 / 5)) ∧
    (∀ v1 v2 normProd, pyFallbackScore v1 v2 normProd =
      canonicalCosine v1 v2 normProd * (6 / 5)) ∧
    (∀ (f : Doc → ℚ) (docs : List Doc),
      (sortDesc (docs.map (fun d => (d, f d * (6 / 5))))).map Prod.fst =
        (sortDesc (docs.map (fun d => (d, f d)))).map Prod.fst) ∧
    (∀ (f : Doc → ℚ) (docs : List Doc),
      rerankBy (fun d => f d * (6 / 5)) docs = rerankBy f docs) := by
  have hc : (0 : ℚ) < 6 / 5 := by norm_num
  have hmap : ∀ (f : Doc → ℚ) (docs : List Doc),
      docs.map (fun d => (d, f d * (6 / 5))) =
        (docs.map (fun d => (d, f d))).map (fun p => (p.1, p.2 * (6 / 5))) := by
    intro f docs
    rw [List.map_map]
    rfl
  refine ⟨fun a b hab => (mul_lt_mul_right hc).mpr hab, fun v1 v2 n => rfl,
    fun f docs => ?_, fun f docs => ?_⟩
  · rw [hmap, sortDesc_map_scale hc, List.map_map]
    rfl
  · rw [rerankBy, rerank, hmap, sortDesc_map_scale hc, ← List.map_take, List.map_map]
    rfl

/-! ## Behaviour of `rag_qa` -/

/-- C8: whenever retrieval yields zero candidates, `rag_qa` returns the
fixed not-found message and its only external call is that single
retrieval — neither the embedding re-scoring nor the generative model
is ever invoked. -/
theorem rag_qa_empty_short_circuit (env : QAEnv) (query : String)
    (h : env.retrieve query = .ok []) :
    rag_qa env query = (.ok "未检索到相关信息", [.retrieveCall query]) := by
  simp [rag_qa, h]

/-- Witness for C8: a concrete store with no matching content. -/
theorem rag_qa_empty_short_circuit_witness :
    envNoDocs.retrieve "q" = .ok [] ∧
    rag_qa envNoDocs "q" = (.ok "未检索到相关信息", [.retrieveCall "q"]) :=
  ⟨rfl, rag_qa_empty_short_circuit envNoDocs "q" rfl⟩

/-- C2 counterexample: with retrieval succeeding on one candidate but
the embedding service failing, `rag_qa` propagates the exception to its
caller — the failure of the `embed_query` call at the re-scoring stage
is not caught, so no error text is returned. -/
theorem rag_qa_raises_on_embed_failure :
    (rag_qa envEmbedDown "q").1 = .error "embedding service unavailable" := rfl

/-- C2 amended: `rag_qa` catches only failures raised inside the final
chain invocation (context re-retrieval, prompting, generation, parsing)
and renders them as the `问答出错：` answer text; it returns normally
whenever the initial retrieval, the query embedding and the candidate
re-scoring embeddings all succeed, while failures of those earlier
calls propagate to the caller as exceptions. -/
theorem rag_qa_catches_chain_failures (env : QAEnv) (query : String)
    (docs : List Doc) (qv : List ℚ) (scored : List (Doc × ℚ)) (tr : List Call)
    (hret : env.retrieve query = .ok docs)
    (hemb : env.embed_query query = .ok qv)
    (hscore : scoreDocs env qv docs = (.ok scored, tr)) :
    (∃ answer, (rag_qa env query).1 = .ok answer) ∧
    (docs ≠ [] → ∀ e, (rag_chain_invoke env query).1 = .error e →
      (rag_qa env query).1 = .ok ("问答出错：" ++ e)) := by
  by_cases hd : docs = []
  · subst hd
    refine ⟨⟨"未检索到相关信息", ?_⟩, fun hfalse => absurd rfl hfalse⟩
    simp [rag_qa, hret]
  · constructor
    · rcases hch : rag_chain_invoke env query with ⟨cres, ctr⟩
      cases cres with
      | ok r =>
        exact ⟨r, by simp [rag_qa, hret, hemb, hscore, hd, hch]⟩
      | error e =>
        exact ⟨"问答出错：" ++ e, by simp [rag_qa, hret, hemb, hscore, hd, hch]⟩
    · intro _ e he
      rcases hch : rag_chain_invoke env query with ⟨cres, ctr⟩
      rw [hch] at he
      simp at he
      subst he
      simp [rag_qa, hret, hemb, hscore, hd, hch]

/-- Witness for the amended C2: with a failing generative model, the
caught chain failure is rendered as the error text. -/
theorem rag_qa_catches_chain_failures_witness :
    envChainFail.retrieve "q" = .ok [d1] ∧
    envChainFail.embed_query "q" = .ok (vec4 "q") ∧
    scoreDocs envChainFail (vec4 "q") [d1] =
      (.ok [(d1, dotProduct (vec4 "q") (vec4 "A"))], [.embedCall "A"]) ∧
    ((∃ answer, (rag_qa envChainFail "q").1 = .ok answer) ∧
     (([d1] : List Doc) ≠ [] → ∀ e, (rag_chain_invoke envChainFail "q").1 = .error e →
       (rag_qa envChainFail "q").1 = .ok ("问答出错：" ++ e))) :=
  ⟨rfl, rfl, rfl,
   rag_qa_catches_chain_failures envChainFail "q" [d1] (vec4 "q")
     [(d1, dotProduct (vec4 "q") (vec4 "A"))] [.embedCall "A"] rfl rfl rfl⟩

/-- C1: evaluation at the failing input.  With four retrieved candidates
scored 0, 1, 2, 3, the re-ranker's top-3 is `[d4, d3, d2]`, yet the
chain context — and the prompt actually passed to the generative model,
as recorded in the call trace — is built by `retriever | format_docs`
from all four retrieved chunks in retrieval order; the context block
the claim mandates differs from the one the code passes. -/
theorem rag_chain_context_ignores_rerank :
    rag_qa env4 "q" =
      (.ok "answer",
       [.retrieveCall "q", .embedCall "q", .embedCall "A", .embedCall "B", .embedCall "C",
        .embedCall "D", .retrieveCall "q",
        .generateCall (promptTemplate (format_docs [d1, d2, d3, d4]) "q")]) ∧
    rag_chain_context env4 "q" = .ok (format_docs [d1, d2, d3, d4]) ∧
    rerankBy (fun d => dotProduct (vec4 "q") (vec4 d.page_content)) [d1, d2, d3, d4] =
      [d4, d3, d2] ∧
    format_docs [d1, d2, d3, d4] ≠ format_docs [d4, d3, d2] := by
  refine ⟨rfl, rfl, ?_, ?_⟩
  · have hq : vec4 "q" = [1] := rfl
    have hA : vec4 "A" = [0] := rfl
    have hB : vec4 "B" = [1] := rfl
    have hC : vec4 "C" = [2] := rfl
    have hD : vec4 "D" = [3] := rfl
    norm_num [rerankBy, rerank, sortDesc, insertDesc, dotProduct, d1, d2, d3, d4,
      hq, hA, hB, hC, hD]
  · decide

end RagEngine
